import Mathlib

set_option maxHeartbeats 1000000

/-!
Shallow embedding of the TinyTorrent acceptance-test harness
(src/backend/verify_upgrade.py) and proofs about it.

Bytes are modelled as natural numbers, byte strings as List Nat, Python
strings as List Char.  A byte source (socket) is modelled as the list of
bytes it will deliver before closing; reading past the end models the
peer closing the connection.  Fallible Python code is modelled with
Except / Option.
-/

/-! ### Generic sequence helpers (Python substring operations) -/

/-- headMatches pat s: pat is a prefix of s (element-by-element). -/
def headMatches [DecidableEq α] : List α → List α → Bool
  | [], _ => true
  | _ :: _, [] => false
  | a :: pats, b :: s => if a = b then headMatches pats s else false

/-- containsSeq pat s models the Python substring test pat in s. -/
def containsSeq [DecidableEq α] (pat : List α) : List α → Bool
  | [] => headMatches pat []
  | a :: t => if headMatches pat (a :: t) then true else containsSeq pat t

/-- splitFirstAux scans for the first occurrence of the pattern p0 :: ps,
returning the part before it (accumulated reversed in acc) and the part
after it. -/
def splitFirstAux [DecidableEq α] (p0 : α) (ps : List α) : List α → List α → Option (List α × List α)
  | [], _acc => none
  | a :: t, acc =>
    if headMatches (p0 :: ps) (a :: t) then some (acc.reverse, t.drop ps.length)
    else splitFirstAux p0 ps t (a :: acc)

/-- splitFirstSeq s pat models Python s.split(pat, 1) when pat occurs:
the part before the first occurrence of pat and the part after it. -/
def splitFirstSeq [DecidableEq α] (pat : List α) (s : List α) : Option (List α × List α) :=
  match pat with
  | [] => some ([], s)
  | p0 :: ps => splitFirstAux p0 ps s []

/-- splitSeqGo: fuelled worker for Python str.split(sep).  The fuel is an
upper bound on the length of the remaining input, so the fuel-exhausted
branch is never reached in pySplitOn below; fuel makes the recursion
structural so the kernel can evaluate it. -/
def splitSeqGo [DecidableEq α] (p0 : α) (ps : List α) : Nat → List α → List α → List (List α)
  | _, [], acc => [acc.reverse]
  | 0, s, acc => [acc.reverse ++ s]
  | fuel + 1, a :: t, acc =>
    if headMatches (p0 :: ps) (a :: t) then
      acc.reverse :: splitSeqGo p0 ps fuel (t.drop ps.length) []
    else splitSeqGo p0 ps fuel t (a :: acc)

/-- pySplitOn s pat models Python s.split(pat) for a nonempty separator:
split at every non-overlapping occurrence, keeping empty parts.
(Python raises on an empty separator; the harness never uses one.) -/
def pySplitOn [DecidableEq α] (s pat : List α) : List (List α) :=
  match pat with
  | [] => [s]
  | p0 :: ps => splitSeqGo p0 ps s.length s []

/-! ### Python string helpers -/

/-- pyIsSpace models the ASCII whitespace characters recognised by
Python str.strip() / str.split() (the harness only meets ASCII). -/
def pyIsSpace (c : Char) : Bool :=
  c = ' ' || c = Char.ofNat 9 || c = Char.ofNat 10 || c = Char.ofNat 13 ||
  c = Char.ofNat 11 || c = Char.ofNat 12

/-- pyStrip models Python str.strip(): drop whitespace from both ends. -/
def pyStrip (s : List Char) : List Char :=
  ((s.dropWhile pyIsSpace).reverse.dropWhile pyIsSpace).reverse

/-- pySplitWsAux: worker for Python str.split() with no separator:
split on runs of whitespace, discarding empty tokens. -/
def pySplitWsAux : List Char → List Char → List (List Char)
  | [], acc => if acc.isEmpty then [] else [acc.reverse]
  | c :: t, acc =>
    if pyIsSpace c then
      if acc.isEmpty then pySplitWsAux t [] else acc.reverse :: pySplitWsAux t []
    else pySplitWsAux t (c :: acc)

/-- pySplitWs models Python str.split() (no separator). -/
def pySplitWs (s : List Char) : List (List Char) := pySplitWsAux s []

/-- pyIsDigit: ASCII decimal digit. -/
def pyIsDigit (c : Char) : Bool := 48 ≤ c.toNat && c.toNat ≤ 57

/-- digitsToNat: value of a list of ASCII digits. -/
def digitsToNat (s : List Char) : Nat :=
  s.foldl (fun a c => a * 10 + (c.toNat - 48)) 0

/-- pyDigitsOpt: all-digit nonempty token to Nat, else none. -/
def pyDigitsOpt (s : List Char) : Option Nat :=
  if s ≠ [] ∧ s.all pyIsDigit then some (digitsToNat s) else none

/-- pyIntOfChars models Python int(token) on a whitespace-free token:
an optional sign followed by one or more ASCII digits; anything else
raises ValueError, modelled as none.  (Python also accepts underscores
between digits and unicode digits; the harness never meets those.) -/
def pyIntOfChars (s : List Char) : Option Int :=
  match s with
  | [] => none
  | c :: rest =>
    if c = '-' then (pyDigitsOpt rest).map (fun n => -(n : Int))
    else if c = '+' then (pyDigitsOpt rest).map (fun n => (n : Int))
    else (pyDigitsOpt s).map (fun n => (n : Int))

/-! ### Frame codec (read_frame / recv_exact_ws, verify_upgrade.py lines 233-257) -/

/-- recvExactWs count s models recv_exact_ws(count) against a byte
source that will deliver exactly the bytes of s before the peer closes:
it returns the first count bytes and the rest of the source, or fails
(RuntimeError "socket closed") when fewer than count bytes remain. -/
def recvExactWs (count : Nat) (s : List Nat) : Except Unit (List Nat × List Nat) :=
  if count ≤ s.length then .ok (s.take count, s.drop count) else .error ()

/-- beToNat models int.from_bytes(bytes, "big"). -/
def beToNat (bs : List Nat) : Nat :=
  bs.foldl (fun acc b => acc * 256 + b) 0

/-- maskBytesAux mk i p XORs every byte of p with mk[(its index + i) mod 4],
the index running from i. -/
def maskBytesAux (mk : List Nat) (i : Nat) : List Nat → List Nat
  | [] => []
  | b :: bs => (b ^^^ mk.getD (i % 4) 0) :: maskBytesAux mk (i + 1) bs

/-- maskBytes models bytes(b ^ mask[i % 4] for i, b in enumerate(payload)). -/
def maskBytes (mk : List Nat) (p : List Nat) : List Nat := maskBytesAux mk 0 p

/-- readFrame models read_frame(): read a 2-byte header; the low 7 bits
of the second byte are the length indicator (126: next 2 bytes big-endian;
127: next 8 bytes big-endian); a 4-byte mask follows exactly when the top
bit of the second byte is set; then the payload, unmasked when a mask was
read.  Returns the payload and the unconsumed bytes of the source. -/
def readFrame (s : List Nat) : Except Unit (List Nat × List Nat) :=
  match recvExactWs 2 s with
  | .error e => .error e
  | .ok (header, s1) =>
    let b1 := header.getD 1 0
    let len0 := b1 &&& 127
    match (if len0 = 126 then
            match recvExactWs 2 s1 with
            | .error e => .error e
            | .ok (ext, s2) => .ok (beToNat ext, s2)
          else if len0 = 127 then
            match recvExactWs 8 s1 with
            | .error e => .error e
            | .ok (ext, s2) => .ok (beToNat ext, s2)
          else .ok (len0, s1) : Except Unit (Nat × List Nat)) with
    | .error e => .error e
    | .ok (len, s2) =>
      if b1 &&& 128 ≠ 0 then
        match recvExactWs 4 s2 with
        | .error e => .error e
        | .ok (mk, s3) =>
          match recvExactWs len s3 with
          | .error e => .error e
          | .ok (payload, s4) => .ok (maskBytes mk payload, s4)
      else
        match recvExactWs len s2 with
        | .error e => .error e
        | .ok (payload, s4) => .ok (payload, s4)

/-- extLen: number of extended-length bytes demanded by a length indicator. -/
def extLen (n : Nat) : Nat := if n = 126 then 2 else if n = 127 then 8 else 0

/-- maskLen: number of masking-key bytes demanded by the second header byte. -/
def maskLen (b1 : Nat) : Nat := if b1 &&& 128 ≠ 0 then 4 else 0

/-- declaredLen: the payload length a frame header declares. -/
def declaredLen (n : Nat) (ext : List Nat) : Nat :=
  if n = 126 ∨ n = 127 then beToNat ext else n

/-- natToBeBytes w n: n rendered as w big-endian bytes,
modelling int.to_bytes(w, "big"). -/
def natToBeBytes : Nat → Nat → List Nat
  | 0, _ => []
  | w + 1, n => (n / 256 ^ w) :: natToBeBytes w (n % 256 ^ w)

/-- Modelled from the spec: the client-to-server frame encoder with
masking, which the source does not implement (spec section 4.2: the
codec must "encode and decode" framing, client-to-server frames "must
carry a masking key", masking is XOR with mask[i mod 4], and the length
indicator forms are 0-125 literal, 126 with 2 big-endian bytes, 127 with
8 big-endian bytes).  First byte 130 = FIN + binary opcode; second byte
has the mask bit (128) set plus the length indicator (the indicator is
at most 127, so adding 128 sets exactly the top bit). -/
def encodeFrame (mk payload : List Nat) : List Nat :=
  let n := payload.length
  let pre : Nat × List Nat :=
    if n ≤ 125 then (n, [])
    else if n ≤ 65535 then (126, natToBeBytes 2 n)
    else (127, natToBeBytes 8 n)
  130 :: (128 + pre.1) :: (pre.2 ++ (mk ++ maskBytes mk payload))

/-! ### JSON value model and the connection.json reader (lines 49-62) -/

/-- JVal: the JSON values json.loads can produce, as far as the harness
inspects them. -/
inductive JVal where
  | jnull
  | jbool (b : Bool)
  | jint (n : Int)
  | jstr (s : String)
  | jobj (m : List (String × JVal))
  | jother

/-- FileState: the observable states of the connection.json file as
read_connection_port meets them. -/
inductive FileState where
  /-- path.is_file() is false. -/
  | missing
  /-- read_text raises (caught by the bare except). -/
  | unreadable
  /-- json.loads raises (caught by the bare except). -/
  | malformed
  /-- json.loads returns a non-dict, so payload.get raises
  AttributeError (caught by the bare except). -/
  | nonObject
  /-- json.loads returns a dict with these entries (keys unique). -/
  | object (m : List (String × JVal))

/-- isPyInt v models isinstance(v, int) on a decoded JSON value.
Python bool is a subclass of int, so JSON true/false pass the check. -/
def isPyInt : JVal → Bool
  | .jint _ => true
  | .jbool _ => true
  | _ => false

/-- pyToInt: the integer value of a decoded JSON value that passes
isinstance(v, int) (Python True == 1, False == 0). -/
def pyToInt : JVal → Int
  | .jint n => n
  | .jbool b => if b then 1 else 0
  | _ => 0

/-- pyEqInt v n models the Python comparison v == n between the result
of dict.get (None when the key is absent) and an int. -/
def pyEqInt (v : Option JVal) (n : Int) : Bool :=
  match v with
  | some (.jint k) => k = n
  | some (.jbool b) => (if b then (1 : Int) else 0) = n
  | _ => false

/-- read_connection_port models read_connection_port(expected_pid):
returns none unless the file exists, parses to a dict whose pid entry
equals expected_pid (when an expected pid is supplied) and whose port
entry is a non-zero int. -/
def read_connection_port (expected : Option Int) (fs : FileState) : Option Int :=
  match fs with
  | .missing => none
  | .unreadable => none
  | .malformed => none
  | .nonObject => none
  | .object m =>
    match expected with
    | some pid =>
      if pyEqInt (List.lookup ("pid") m) pid then
        match List.lookup ("port") m with
        | some v => if isPyInt v && pyToInt v ≠ 0 then some (pyToInt v) else none
        | none => none
      else none
    | none =>
      match List.lookup ("port") m with
      | some v => if isPyInt v && pyToInt v ≠ 0 then some (pyToInt v) else none
      | none => none

/-! ### Endpoint discovery (start_backend, lines 95-122) -/

/-- rpcNeedle: the first announcement phrasing. -/
def rpcNeedle : List Char := ("RPC listening on port").data

/-- portNeedle: separator for the first phrasing's split. -/
def portNeedle : List Char := ("port").data

/-- postNeedle: the second announcement phrasing. -/
def postNeedle : List Char := ("POST requests should hit").data

/-- httpNeedle: the URL scheme the second phrasing demands. -/
def httpNeedle : List Char := ("http://").data

/-- slashSep: separator "/" for URL splitting. -/
def slashSep : List Char := [ '/' ]

/-- colonSep: separator ":" for host:port splitting. -/
def colonSep : List Char := [ ':' ]

/-- branch1Parse models int(line.split("port")[1].strip().split()[0])
under the enclosing try/except: any IndexError or ValueError yields
none (pass). -/
def branch1Parse (line : List Char) : Option Int :=
  match (pySplitOn line portNeedle).get? 1 with
  | none => none
  | some after =>
    match (pySplitWs (pyStrip after)).get? 0 with
    | none => none
    | some tok => pyIntOfChars tok

/-- PyErr: uncaught Python exceptions the discovery loop can raise. -/
inductive PyErr where
  /-- RuntimeError("backend exited before listening"). -/
  | processExited
  /-- an uncaught IndexError / ValueError in the second log branch. -/
  | uncaught
deriving DecidableEq

/-- scanStep models one iteration of the for-loop over reversed
output_lines: the first branch (guarded by its own try/except)
overwrites port with the parse of a line containing rpcNeedle; the
second branch runs only when the line contains postNeedle and port is
still None, and its indexing / int() failures are uncaught. -/
def scanStep (port : Option Int) (line : List Char) : Except PyErr (Option Int) :=
  let port1 := if containsSeq rpcNeedle line then
      match branch1Parse line with
      | some n => some n
      | none => port
    else port
  if containsSeq postNeedle line ∧ port1 = none then
    let parts := pySplitOn line postNeedle
    if parts.length = 2 then
      let url := pyStrip ((parts.get? 1).getD [])
      if headMatches httpNeedle url then
        match (pySplitOn url slashSep).get? 2 with
        | none => .error .uncaught
        | some hostPort =>
          match (pySplitOn hostPort colonSep).get? 1 with
          | none => .error .uncaught
          | some portStr =>
            match pyIntOfChars portStr with
            | none => .error .uncaught
            | some n => .ok (some n)
      else .ok port1
    else .ok port1
  else .ok port1

/-- scanLinesAux folds scanStep over a list of lines, threading the
port variable. -/
def scanLinesAux (port : Option Int) : List (List Char) → Except PyErr (Option Int)
  | [] => .ok port
  | l :: ls =>
    match scanStep port l with
    | .error e => .error e
    | .ok p => scanLinesAux p ls

/-- scanLines models the for-loop over reversed(output_lines) starting
from port = None (the state at the first poll cycle). -/
def scanLines (lines : List (List Char)) : Except PyErr (Option Int) :=
  scanLinesAux none lines.reverse

/-- PollObs: what one poll cycle of the discovery loop observes — the
accumulated output lines, the state of connection.json, and whether
proc.poll() reports the process as exited. -/
structure PollObs where
  lines : List (List Char)
  file : FileState
  exited : Bool

/-- CycleOut: the outcome of one poll cycle — break out of the loop with
a port, or continue to the next cycle carrying the port variable. -/
inductive CycleOut where
  | found (p : Int)
  | again (port : Option Int)

/-- pollCycle models one iteration of the discovery while-loop, starting
from the port value left by the previous iteration: raise if the process
exited; scan the lines; break when port is truthy; consult the state
file only when port is None; otherwise sleep and retry. -/
def pollCycle (pid : Int) (port0 : Option Int) (o : PollObs) : Except PyErr CycleOut :=
  if o.exited then .error .processExited
  else
    match scanLinesAux port0 o.lines.reverse with
    | .error e => .error e
    | .ok p =>
      match p with
      | some n => if n ≠ 0 then .ok (.found n) else .ok (.again (some n))
      | none =>
        match read_connection_port (some pid) o.file with
        | some q => if q ≠ 0 then .ok (.found q) else .ok (.again (some q))
        | none => .ok (.again none)

/-- DiscoverResult: what start_backend's discovery phase produces —
a returned port, or the RuntimeError("failed to detect RPC port") raised
after the deadline (the spec's DiscoveryTimeout). -/
inductive DiscoverResult where
  | returned (p : Int)
  | timeoutRaised
deriving DecidableEq

/-- discoverLoop models the while time.time() < deadline loop: the
observation list holds what each successive poll cycle sees (its
exhaustion models the 30-second deadline elapsing, the 100ms sleep
separating consecutive entries); after the loop, port = None raises and
any other port value is returned. -/
def discoverLoop (pid : Int) (port0 : Option Int) : List PollObs → Except PyErr DiscoverResult
  | [] =>
    match port0 with
    | none => .ok .timeoutRaised
    | some p => .ok (.returned p)
  | o :: os =>
    match pollCycle pid port0 o with
    | .error e => .error e
    | .ok (.found p) => .ok (.returned p)
    | .ok (.again p) => discoverLoop pid p os

/-- discover models the whole discovery phase of start_backend. -/
def discover (pid : Int) (obs : List PollObs) : Except PyErr DiscoverResult :=
  discoverLoop pid none obs

/-! ### WebSocket handshake (websocket_sequence, lines 219-231) -/

/-- crlfcrlf: the blank-line header terminator b"\x0d\x0a\x0d\x0a". -/
def crlfcrlf : List Nat := [13, 10, 13, 10]

/-- statusNeedle: the bytes of "101", the upgrade success status the
handshake reply must contain. -/
def statusNeedle : List Nat := [49, 48, 49]

/-- ws_recv_headers models the handshake read loop: accumulate recv
chunks until the terminator appears in the accumulated response; an
empty chunk (peer closed) or an accumulated size over 65536 raises. -/
def ws_recv_headers (chunks : List (List Nat)) (response : List Nat) : Except Unit (List Nat) :=
  if containsSeq crlfcrlf response then .ok response
  else
    match chunks with
    | [] => .error ()
    | c :: cs =>
      if c = [] then .error ()
      else if 65536 < (response ++ c).length then .error ()
      else ws_recv_headers cs (response ++ c)

/-- ws_handshake models the response side of websocket_sequence's
handshake: read until the terminator, split the response at its first
occurrence into header blob and leftover, and fail unless the header
blob contains "101".  The leftover bytes seed the frame buffer. -/
def ws_handshake (chunks : List (List Nat)) : Except Unit (List Nat × List Nat) :=
  match ws_recv_headers chunks [] with
  | .error e => .error e
  | .ok response =>
    match splitFirstSeq crlfcrlf response with
    | none => .error ()
    | some (hdr, leftover) =>
      if containsSeq statusNeedle hdr then .ok (hdr, leftover) else .error ()

/-- headerBlock: the bytes before the first blank-line terminator. -/
def headerBlock (resp : List Nat) : List Nat :=
  match splitFirstSeq crlfcrlf resp with
  | some pr => pr.1
  | none => resp

/-- afterHeader: the bytes after the first blank-line terminator. -/
def afterHeader (resp : List Nat) : List Nat :=
  match splitFirstSeq crlfcrlf resp with
  | some pr => pr.2
  | none => []

/-! ### UTF-8 decoding and the RPC response body (post_rpc, lines 125-140) -/

/-- contByte: a UTF-8 continuation byte 0x80..0xBF. -/
def contByte (b : Nat) : Bool := 128 ≤ b && b ≤ 191

/-- utf8Cont2ok: the constraint on the first continuation byte of a
3-byte sequence (E0 excludes overlongs, ED excludes surrogates). -/
def utf8Cont2ok (b c1 : Nat) : Bool :=
  if b = 224 then 160 ≤ c1 && c1 ≤ 191
  else if b = 237 then 128 ≤ c1 && c1 ≤ 159
  else contByte c1

/-- utf8Cont3ok: the constraint on the first continuation byte of a
4-byte sequence (F0 excludes overlongs, F4 excludes values past
U+10FFFF). -/
def utf8Cont3ok (b c1 : Nat) : Bool :=
  if b = 240 then 144 ≤ c1 && c1 ≤ 191
  else if b = 244 then 128 ≤ c1 && c1 ≤ 143
  else contByte c1

/-- utf8Step: decode one scalar from the front of the byte list,
returning the character and the number of bytes consumed, or none on an
invalid or truncated sequence. -/
def utf8Step (bs : List Nat) : Option (Char × Nat) :=
  match bs with
  | [] => none
  | b :: rest =>
    if b < 128 then some (Char.ofNat b, 1)
    else if 194 ≤ b ∧ b ≤ 223 then
      match rest with
      | c1 :: _ =>
        if contByte c1 then some (Char.ofNat ((b - 192) * 64 + (c1 - 128)), 2) else none
      | [] => none
    else if 224 ≤ b ∧ b ≤ 239 then
      match rest with
      | c1 :: c2 :: _ =>
        if utf8Cont2ok b c1 && contByte c2 then
          some (Char.ofNat ((b - 224) * 4096 + (c1 - 128) * 64 + (c2 - 128)), 3)
        else none
      | _ => none
    else if 240 ≤ b ∧ b ≤ 244 then
      match rest with
      | c1 :: c2 :: c3 :: _ =>
        if utf8Cont3ok b c1 && contByte c2 && contByte c3 then
          some (Char.ofNat ((b - 240) * 262144 + (c1 - 128) * 4096 + (c2 - 128) * 64 + (c3 - 128)), 4)
        else none
      | _ => none
    else none

/-- utf8Skip: on a decode error, how many bytes Python's "ignore" error
handler drops — the maximal prefix that could still start a valid
sequence (Unicode "maximal subpart"), at least one byte. -/
def utf8Skip (bs : List Nat) : Nat :=
  match bs with
  | [] => 1
  | b :: rest =>
    if 224 ≤ b ∧ b ≤ 239 then
      match rest with
      | c1 :: _ => if utf8Cont2ok b c1 then 2 else 1
      | [] => 1
    else if 240 ≤ b ∧ b ≤ 244 then
      match rest with
      | c1 :: c2 :: _ =>
        if utf8Cont3ok b c1 then (if contByte c2 then 3 else 2) else 1
      | [c1] => if utf8Cont3ok b c1 then 2 else 1
      | [] => 1
    else 1

/-- utf8StrictGo: fuelled strict UTF-8 decoder, modelling
bytes.decode("utf-8"): none models UnicodeDecodeError.  The fuel is an
upper bound on the input length.  utf8Step consumes k bytes with
1 ≤ k, so dropping k bytes from b :: rest is dropping k - 1 from
rest; recursing on the tail keeps the fuel bound structural. -/
def utf8StrictGo : Nat → List Nat → Option (List Char)
  | _, [] => some []
  | 0, _ => none
  | fuel + 1, b :: rest =>
    match utf8Step (b :: rest) with
    | some (c, k) => (utf8StrictGo fuel (rest.drop (k - 1))).map (fun t => c :: t)
    | none => none

/-- utf8IgnoreGo: fuelled decoder modelling
bytes.decode("utf-8", errors="ignore"): invalid bytes are dropped. -/
def utf8IgnoreGo : Nat → List Nat → List Char
  | _, [] => []
  | 0, _ => []
  | fuel + 1, b :: rest =>
    match utf8Step (b :: rest) with
    | some (c, k) => c :: utf8IgnoreGo fuel (rest.drop (k - 1))
    | none => utf8IgnoreGo fuel (rest.drop (utf8Skip (b :: rest) - 1))

/-- utf8DecodeStrict models body.decode("utf-8"). -/
def utf8DecodeStrict (bs : List Nat) : Option (List Char) := utf8StrictGo bs.length bs

/-- utf8DecodeIgnore models body.decode("utf-8", errors="ignore"). -/
def utf8DecodeIgnore (bs : List Nat) : List Char := utf8IgnoreGo bs.length bs

/-- RpcData: what post_rpc hands back for the body — parsed JSON or raw
text. -/
inductive RpcData where
  | json (v : JVal)
  | raw (t : List Char)

/-- post_rpc_decode models the body handling of post_rpc, parameterised
by json.loads (jsonParse): try json.loads(body.decode("utf-8")); if the
strict decode or the parse raises, fall back to
body.decode("utf-8", errors="ignore").  It never raises. -/
def post_rpc_decode (jsonParse : List Char → Option JVal) (body : List Nat) : RpcData :=
  match utf8DecodeStrict body with
  | some s =>
    match jsonParse s with
    | some v => .json v
    | none => .raw (utf8DecodeIgnore body)
  | none => .raw (utf8DecodeIgnore body)

/-- rawBytesOf: the byte rendering (code points) of a raw result, none
for a parsed one. -/
def rawBytesOf : RpcData → Option (List Nat)
  | .raw t => some (t.map (fun c => c.toNat))
  | .json _ => none

/-! ### Streaming scenario loop (websocket_sequence, lines 259-272) -/

/-- WsOutcome: how the sync-patch wait loop ends. -/
inductive WsOutcome where
  /-- printed ok and returned. -/
  | passed
  /-- AssertionError("sync-patch missing sequence"). -/
  | assertionError
  /-- an uncaught AttributeError: json.loads produced a non-dict and
  data.get was called on it. -/
  | pyError
  /-- the deadline elapsed: RuntimeError("no sync-patch received with
  sequence"). -/
  | timedOut
deriving DecidableEq

/-- hasKey m k models the Python test k in data for a decoded dict. -/
def hasKey (m : List (String × JVal)) (k : String) : Bool :=
  (List.lookup k m).isSome

/-- isSyncPatchVal v models data.get("type") == "sync-patch". -/
def isSyncPatchVal : Option JVal → Bool
  | some (.jstr s) => s = "sync-patch"
  | _ => false

/-- sync_patch_loop models the 10-second receive loop of
websocket_sequence over the sequence of json.loads outcomes of the
frames decoded before the deadline (none: the parse raised, so the loop
continues; list exhaustion: the deadline elapsed).  A frame whose data
satisfies data.get("type") == "sync-patch" or "sequence" in data ends
the loop: passed when "sequence" is present, AssertionError otherwise. -/
def sync_patch_loop : List (Option JVal) → WsOutcome
  | [] => .timedOut
  | item :: rest =>
    match item with
    | none => sync_patch_loop rest
    | some v =>
      match v with
      | .jobj m =>
        if isSyncPatchVal (List.lookup ("type") m) || hasKey m ("sequence") then
          if hasKey m ("sequence") then .passed else .assertionError
        else sync_patch_loop rest
      | _ => .pyError

/-! ### main and teardown (lines 275-293) -/

/-- RunCfg: the abstract fate of one harness run — whether
subprocess.Popen succeeded, whether discovery found a port afterwards,
and whether every scenario passed. -/
structure RunCfg where
  popenOk : Bool
  discoveredPort : Option Int
  scenariosOk : Bool

/-- start_backend_launches: whether the child process was actually
created (Popen ran) during start_backend. -/
def start_backend_launches (cfg : RunCfg) : Bool := cfg.popenOk

/-- start_backend_result: what the call proc, port = start_backend(...)
does in main: raises when Popen fails or when discovery fails — in both
cases the tuple assignment never happens, so main's proc stays None. -/
def start_backend_result (cfg : RunCfg) : Except Unit Int :=
  if cfg.popenOk then
    match cfg.discoveredPort with
    | some p => .ok p
    | none => .error ()
  else .error ()

/-- main_model models main's try/finally: the finally block runs
terminate / wait(5) / kill only when main's local proc is bound, i.e.
only when start_backend returned.  Result: (outcome, teardown ran). -/
def main_model (cfg : RunCfg) : Except Unit Unit × Bool :=
  match start_backend_result cfg with
  | .error e => (.error e, false)
  | .ok _ => (if cfg.scenariosOk then .ok () else .error (), true)

/-- strBytes: a string as its byte list (all witnesses use ASCII, where
code points and bytes coincide). -/
def strBytes (s : String) : List Nat := s.data.map (fun c => c.toNat)

/-! ### Helper lemmas -/

theorem recvExactWs_of_len (n : Nat) (a b : List Nat) (h : a.length = n) :
    recvExactWs n (a ++ b) = .ok (a, b) := by
  subst h
  unfold recvExactWs
  rw [if_pos (by simp)]
  rw [List.take_left, List.drop_left]

theorem recvExactWs_two (b0 b1 : Nat) (t : List Nat) :
    recvExactWs 2 (b0 :: b1 :: t) = .ok ([b0, b1], t) :=
  recvExactWs_of_len 2 [b0, b1] t rfl

theorem recvExactWs_short (n : Nat) (s : List Nat) (h : s.length < n) :
    recvExactWs n s = .error () := by
  unfold recvExactWs
  rw [if_neg (by omega)]

theorem length_maskBytesAux (mk : List Nat) (i : Nat) (p : List Nat) :
    (maskBytesAux mk i p).length = p.length := by
  induction p generalizing i with
  | nil => rfl
  | cons b bs ih => simp [maskBytesAux, ih]

theorem length_maskBytes (mk p : List Nat) : (maskBytes mk p).length = p.length :=
  length_maskBytesAux mk 0 p

theorem maskBytesAux_invol (mk : List Nat) (i : Nat) (p : List Nat) :
    maskBytesAux mk i (maskBytesAux mk i p) = p := by
  induction p generalizing i with
  | nil => rfl
  | cons b bs ih =>
    simp [maskBytesAux, ih, Nat.xor_assoc]

theorem maskBytes_invol (mk p : List Nat) : maskBytes mk (maskBytes mk p) = p :=
  maskBytesAux_invol mk 0 p

theorem beToNat_go (l : List Nat) : ∀ a : Nat,
    l.foldl (fun acc b => acc * 256 + b) a =
      a * 256 ^ l.length + l.foldl (fun acc b => acc * 256 + b) 0 := by
  induction l with
  | nil => intro a; simp
  | cons x xs ih =>
    intro a
    simp only [List.foldl, List.length_cons]
    rw [ih (a * 256 + x), ih (0 * 256 + x)]
    ring

theorem beToNat_cons (b : Nat) (t : List Nat) :
    beToNat (b :: t) = b * 256 ^ t.length + beToNat t := by
  simp only [beToNat, List.foldl]
  rw [beToNat_go t (0 * 256 + b)]
  ring

theorem length_natToBeBytes (w n : Nat) : (natToBeBytes w n).length = w := by
  induction w generalizing n with
  | zero => rfl
  | succ v ih => simp [natToBeBytes, ih]

theorem beToNat_natToBeBytes (w n : Nat) (h : n < 256 ^ w) :
    beToNat (natToBeBytes w n) = n := by
  induction w generalizing n with
  | zero =>
    have : n = 0 := by simpa using h
    subst this
    rfl
  | succ v ih =>
    have hmod : n % 256 ^ v < 256 ^ v := Nat.mod_lt _ (Nat.pos_pow_of_pos v (by norm_num))
    simp only [natToBeBytes, beToNat_cons, length_natToBeBytes, ih _ hmod]
    rw [Nat.mul_comm]
    exact Nat.div_add_mod n (256 ^ v)

theorem addland127 : ∀ n < 128, (128 + n) &&& 127 = n := by decide

theorem addland128 : ∀ n < 128, (128 + n) &&& 128 ≠ 0 := by decide

/-- readFrame on a stream laid out as header, extended length, mask and
tail reduces to reading the declared payload length from the tail. -/
theorem readFrame_parts (b0 b1 : Nat) (ext mask tail : List Nat)
    (hext : ext.length = extLen (b1 &&& 127))
    (hmask : mask.length = maskLen b1) :
    readFrame (b0 :: b1 :: (ext ++ (mask ++ tail))) =
      (recvExactWs (declaredLen (b1 &&& 127) ext) tail).map
        (fun pr => ((if b1 &&& 128 ≠ 0 then maskBytes mask pr.1 else pr.1), pr.2)) := by
  unfold readFrame
  rw [recvExactWs_two]
  simp only [List.getD, List.get?, Option.getD]
  by_cases h126 : b1 &&& 127 = 126
  · have he : ext.length = 2 := by rw [hext, extLen, if_pos h126]
    rw [recvExactWs_of_len 2 ext (mask ++ tail) he]
    simp only [h126, if_pos]
    rw [show declaredLen 126 ext = beToNat ext from by simp [declaredLen]]
    by_cases hm : b1 &&& 128 ≠ 0
    · have hm4 : mask.length = 4 := by rw [hmask, maskLen, if_pos hm]
      rw [if_pos hm, recvExactWs_of_len 4 mask tail hm4]
      cases hrc : recvExactWs (beToNat ext) tail with
      | error e => simp [hrc, Except.map, hm]
      | ok pr => simp [hrc, Except.map, hm]
    · have hm0 : mask.length = 0 := by rw [hmask, maskLen, if_neg hm]
      have : mask = [] := List.eq_nil_of_length_eq_zero hm0
      subst this
      rw [if_neg hm]
      simp only [List.nil_append]
      cases hrc : recvExactWs (beToNat ext) tail with
      | error e => simp [hrc, Except.map, hm]
      | ok pr => simp [hrc, Except.map, hm]
  · by_cases h127 : b1 &&& 127 = 127
    · have he : ext.length = 8 := by rw [hext, extLen, if_neg h126, if_pos h127]
      rw [if_neg (by omega)]
      rw [recvExactWs_of_len 8 ext (mask ++ tail) he]
      simp only [h127, if_pos]
      rw [show declaredLen 127 ext = beToNat ext from by simp [declaredLen]]
      by_cases hm : b1 &&& 128 ≠ 0
      · have hm4 : mask.length = 4 := by rw [hmask, maskLen, if_pos hm]
        rw [if_pos hm, recvExactWs_of_len 4 mask tail hm4]
        cases hrc : recvExactWs (beToNat ext) tail with
        | error e => simp [hrc, Except.map, hm]
        | ok pr => simp [hrc, Except.map, hm]
      · have hm0 : mask.length = 0 := by rw [hmask, maskLen, if_neg hm]
        have : mask = [] := List.eq_nil_of_length_eq_zero hm0
        subst this
        rw [if_neg hm]
        simp only [List.nil_append]
        cases hrc : recvExactWs (beToNat ext) tail with
        | error e => simp [hrc, Except.map, hm]
        | ok pr => simp [hrc, Except.map, hm]
    · have he : ext.length = 0 := by rw [hext, extLen, if_neg h126, if_neg h127]
      have : ext = [] := List.eq_nil_of_length_eq_zero he
      subst this
      rw [if_neg h126, if_neg h127]
      simp only [List.nil_append]
      rw [show declaredLen (b1 &&& 127) [] = b1 &&& 127 from by
        simp [declaredLen, h126, h127]]
      by_cases hm : b1 &&& 128 ≠ 0
      · have hm4 : mask.length = 4 := by rw [hmask, maskLen, if_pos hm]
        rw [if_pos hm, recvExactWs_of_len 4 mask tail hm4]
        cases hrc : recvExactWs (b1 &&& 127) tail with
        | error e => simp [hrc, Except.map, hm]
        | ok pr => simp [hrc, Except.map, hm]
      · have hm0 : mask.length = 0 := by rw [hmask, maskLen, if_neg hm]
        have : mask = [] := List.eq_nil_of_length_eq_zero hm0
        subst this
        rw [if_neg hm]
        simp only [List.nil_append]
        cases hrc : recvExactWs (b1 &&& 127) tail with
        | error e => simp [hrc, Except.map, hm]
        | ok pr => simp [hrc, Except.map, hm]

/-! ### C1: frame decoder structure -/

/-- C1: for every byte stream beginning a server-to-client frame, the
frame decoder reads a 2-byte header, takes the low 7 bits of the second
byte as the length indicator (0-125 literal, 126: next 2 bytes
big-endian, 127: next 8 bytes big-endian — captured by extLen and
declaredLen), reads a 4-byte masking key exactly when the top bit of the
second byte is set (captured by maskLen), reads exactly the declared
number of payload bytes, and returns the payload XOR-ed with
mask[i mod 4] when a mask is present and unchanged otherwise, leaving
the remaining bytes of the stream unconsumed. -/
theorem C1_frame_decode (b0 b1 : Nat) (ext mask payload rest : List Nat)
    (hext : ext.length = extLen (b1 &&& 127))
    (hmask : mask.length = maskLen b1)
    (hpay : payload.length = declaredLen (b1 &&& 127) ext) :
    readFrame (b0 :: b1 :: (ext ++ (mask ++ (payload ++ rest)))) =
      .ok ((if b1 &&& 128 ≠ 0 then maskBytes mask payload else payload), rest) := by
  rw [readFrame_parts b0 b1 ext mask (payload ++ rest) hext hmask,
    recvExactWs_of_len (declaredLen (b1 &&& 127) ext) payload rest hpay]
  rfl

/-- C1 witness: a concrete masked frame with literal length 3, mask bit
set, followed by a trailing byte that is left unconsumed. -/
theorem C1_frame_decode_witness :
    readFrame [130, 131, 1, 2, 3, 4, 10, 20, 30, 99] =
      .ok (maskBytes [1, 2, 3, 4] [10, 20, 30], [99]) := by
  have h := C1_frame_decode 130 131 [] [1, 2, 3, 4] [10, 20, 30] [99]
    (by decide) (by decide) (by decide)
  simpa using h

/-! ### C2: truncated frames fail -/

/-- C2: for every frame whose header declares payload length N, if the
byte source closes after any strictly shorter payload prefix, decoding
fails (the model of raising FrameError) instead of returning a
truncated payload. -/
theorem C2_truncation_fails (b0 b1 : Nat) (ext mask trunc : List Nat)
    (hext : ext.length = extLen (b1 &&& 127))
    (hmask : mask.length = maskLen b1)
    (htr : trunc.length < declaredLen (b1 &&& 127) ext) :
    readFrame (b0 :: b1 :: (ext ++ (mask ++ trunc))) = .error () := by
  rw [readFrame_parts b0 b1 ext mask trunc hext hmask,
    recvExactWs_short (declaredLen (b1 &&& 127) ext) trunc htr]
  rfl

/-- C2 witness: a frame declaring 3 payload bytes whose source closes
after 2. -/
theorem C2_truncation_fails_witness :
    readFrame [130, 3, 7, 8] = .error () := by
  have h := C2_truncation_fails 130 3 [] [] [7, 8] (by decide) (by decide) (by decide)
  simpa using h

/-! ### C3: encode/decode round trip -/

/-- C3: the spec-modelled client-to-server encoder (encodeFrame) with
any 4-byte mask round-trips through the source's decoder: decoding the
encoding of any payload (in particular of sizes 0, 1, 125, 126, 65535
and 65536, which exercise all three length-indicator forms) reproduces
the payload exactly and consumes exactly the frame. -/
theorem C3_roundtrip (mk payload rest : List Nat) (hmk : mk.length = 4)
    (hbound : payload.length < 2 ^ 64) :
    readFrame (encodeFrame mk payload ++ rest) = .ok (payload, rest) := by
  simp only [encodeFrame]
  by_cases h1 : payload.length ≤ 125
  · rw [if_pos h1]
    have hp := readFrame_parts 130 (128 + payload.length) [] mk
      (maskBytes mk payload ++ rest)
      (by rw [addland127 payload.length (by omega)]
          rw [extLen, if_neg (by omega), if_neg (by omega)]
          rfl)
      (by rw [maskLen, if_pos (addland128 payload.length (by omega))]; exact hmk)
    rw [List.nil_append] at hp
    simp only [List.cons_append, List.append_assoc, List.nil_append]
    rw [hp, addland127 payload.length (by omega)]
    rw [show declaredLen payload.length [] = payload.length from by
      rw [declaredLen, if_neg (by omega)]]
    rw [recvExactWs_of_len payload.length (maskBytes mk payload) rest
      (length_maskBytes mk payload)]
    simp [Except.map, addland128 payload.length (by omega), maskBytes_invol]
  · by_cases h2 : payload.length ≤ 65535
    · rw [if_neg h1, if_pos h2]
      have hp := readFrame_parts 130 (128 + 126) (natToBeBytes 2 payload.length) mk
        (maskBytes mk payload ++ rest)
        (by rw [addland127 126 (by omega)]; simp [extLen, length_natToBeBytes])
        (by rw [maskLen, if_pos (addland128 126 (by omega))]; exact hmk)
      simp only [List.cons_append, List.append_assoc]
      rw [hp, addland127 126 (by omega)]
      rw [show declaredLen 126 (natToBeBytes 2 payload.length) = payload.length from by
        rw [declaredLen, if_pos (by omega)]
        exact beToNat_natToBeBytes 2 payload.length (by norm_num; omega)]
      rw [recvExactWs_of_len payload.length (maskBytes mk payload) rest
        (length_maskBytes mk payload)]
      simp [Except.map, addland128 126 (by omega), maskBytes_invol]
    · rw [if_neg h1, if_neg h2]
      have hp := readFrame_parts 130 (128 + 127) (natToBeBytes 8 payload.length) mk
        (maskBytes mk payload ++ rest)
        (by rw [addland127 127 (by omega)]; simp [extLen, length_natToBeBytes])
        (by rw [maskLen, if_pos (addland128 127 (by omega))]; exact hmk)
      simp only [List.cons_append, List.append_assoc]
      rw [hp, addland127 127 (by omega)]
      rw [show declaredLen 127 (natToBeBytes 8 payload.length) = payload.length from by
        rw [declaredLen, if_pos (by omega)]
        exact beToNat_natToBeBytes 8 payload.length (by norm_num; omega)]
      rw [recvExactWs_of_len payload.length (maskBytes mk payload) rest
        (length_maskBytes mk payload)]
      simp [Except.map, addland128 127 (by omega), maskBytes_invol]

/-- C3 witness: a concrete 3-byte payload with a concrete mask, with a
trailing byte left unconsumed. -/
theorem C3_roundtrip_witness :
    readFrame (encodeFrame [1, 2, 3, 4] [5, 6, 7] ++ [99]) = .ok ([5, 6, 7], [99]) :=
  C3_roundtrip [1, 2, 3, 4] [5, 6, 7] [99] (by decide) (by decide)

/-! ### C4 and C5: endpoint discovery -/

theorem scanStep_quiet (port : Option Int) (l : List Char)
    (h1 : containsSeq rpcNeedle l = false) (h2 : containsSeq postNeedle l = false) :
    scanStep port l = .ok port := by
  unfold scanStep
  simp [h1, h2]

theorem scanLinesAux_quiet (port : Option Int) (ls : List (List Char))
    (h : ∀ l ∈ ls, containsSeq rpcNeedle l = false ∧ containsSeq postNeedle l = false) :
    scanLinesAux port ls = .ok port := by
  induction ls with
  | nil => rfl
  | cons l t ih =>
    have hl := h l (by simp)
    unfold scanLinesAux
    rw [scanStep_quiet port l hl.1 hl.2]
    exact ih (fun x hx => h x (by simp [hx]))

theorem pollCycle_quiet (pid : Int) (o : PollObs)
    (hex : o.exited = false)
    (hl : ∀ l ∈ o.lines, containsSeq rpcNeedle l = false ∧ containsSeq postNeedle l = false)
    (hf : read_connection_port (some pid) o.file = none) :
    pollCycle pid none o = .ok (.again none) := by
  unfold pollCycle
  rw [if_neg (by simp [hex])]
  rw [scanLinesAux_quiet none o.lines.reverse
    (fun l hlm => hl l (List.mem_reverse.mp hlm))]
  simp [hf]

/-- C4: when the persisted state file records a pid different from the
supervised process while an accumulated output line announces a port,
discovery takes the log-derived port and never the file's: the
state-file reader returns none on a pid mismatch, and a poll cycle
whose line scan yields a (non-zero) port returns exactly that port for
every possible state of the file — the file is consulted only when the
scan yielded nothing. -/
theorem C4_log_beats_stale_file (pid pidFile : Int) (m : List (String × JVal))
    (lines : List (List Char)) (p : Int)
    (hpid : List.lookup ("pid") m = some (.jint pidFile))
    (hne : pidFile ≠ pid)
    (hscan : scanLines lines = .ok (some p)) (hp : p ≠ 0) :
    read_connection_port (some pid) (.object m) = none ∧
    (∀ fs : FileState, pollCycle pid none ⟨lines, fs, false⟩ = .ok (.found p)) ∧
    (∀ (fs : FileState) (later : List PollObs),
      discover pid (⟨lines, fs, false⟩ :: later) = .ok (.returned p)) := by
  have hcycle : ∀ fs : FileState, pollCycle pid none ⟨lines, fs, false⟩ = .ok (.found p) := by
    intro fs
    unfold pollCycle
    rw [if_neg (by simp)]
    unfold scanLines at hscan
    simp only at hscan ⊢
    rw [hscan]
    simp [hp]
  refine ⟨?_, hcycle, ?_⟩
  · simp only [read_connection_port]
    rw [hpid]
    simp [pyEqInt, hne]
  · intro fs later
    unfold discover
    conv_lhs => rw [discoverLoop]
    rw [hcycle fs]

/-- C4 witness: pid 222, a stale connection.json recorded by pid 111
with port 9999, and a log line announcing port 8080: the reader rejects
the file and the poll cycle returns 8080. -/
theorem C4_log_beats_stale_file_witness :
    read_connection_port (some 222)
      (.object [(("pid"), .jint 111), (("port"), .jint 9999)]) = none ∧
    discover 222
      [⟨[("RPC listening on port 8080").data],
        .object [(("pid"), .jint 111), (("port"), .jint 9999)], false⟩] =
      .ok (.returned 8080) := by
  have h := C4_log_beats_stale_file 222 111
    [(("pid"), .jint 111), (("port"), .jint 9999)]
    [("RPC listening on port 8080").data] 8080
    rfl (by decide) rfl (by decide)
  exact ⟨h.1, h.2.2 _ []⟩

/-- C5 counterexample: the claim says every port value discovery
returns is a positive integer, but a run whose only signal is the log
line "RPC listening on port -7" makes discovery return -7, which is not
positive. -/
theorem C5_counterexample :
    discover 1 [⟨[("RPC listening on port -7").data], .missing, false⟩] =
      .ok (.returned (-7)) ∧ ¬ (0 < (-7 : Int)) :=
  ⟨rfl, by decide⟩

/-- C5 amended: discovery returns an integer port (not necessarily
positive: a signal announcing a non-positive number is returned as-is)
or fails: when, throughout the deadline (the finite observation trace),
the process stays alive, no output line contains either recognized
announcement phrasing and the state file never yields a port for the
supervised pid, discovery raises the timeout failure once the deadline
elapses; and a poll cycle that finds nothing is retried, not an
error. -/
theorem C5_timeout_amended :
    (∀ (pid : Int) (obs : List PollObs),
      (∀ o ∈ obs, o.exited = false ∧
        (∀ l ∈ o.lines, containsSeq rpcNeedle l = false ∧ containsSeq postNeedle l = false) ∧
        read_connection_port (some pid) o.file = none) →
      discover pid obs = .ok .timeoutRaised) ∧
    (∀ (pid : Int) (o : PollObs) (obs : List PollObs),
      o.exited = false →
      (∀ l ∈ o.lines, containsSeq rpcNeedle l = false ∧ containsSeq postNeedle l = false) →
      read_connection_port (some pid) o.file = none →
      discover pid (o :: obs) = discover pid obs) := by
  constructor
  · intro pid obs h
    unfold discover
    induction obs with
    | nil => rfl
    | cons o t ih =>
      have ho := h o (by simp)
      unfold discoverLoop
      rw [pollCycle_quiet pid o ho.1 ho.2.1 ho.2.2]
      exact ih (fun x hx => h x (by simp [hx]))
  · intro pid o obs hex hl hf
    unfold discover
    conv_lhs => rw [discoverLoop]
    rw [pollCycle_quiet pid o hex hl hf]

/-! ### C6: handshake acceptance -/

theorem splitFirstAux_isSome [DecidableEq α] (p0 : α) (ps : List α) :
    ∀ (s acc : List α), containsSeq (p0 :: ps) s = true →
      (splitFirstAux p0 ps s acc).isSome := by
  intro s
  induction s with
  | nil =>
    intro acc h
    exact absurd h (by simp [containsSeq, headMatches])
  | cons a t ih =>
    intro acc h
    unfold splitFirstAux
    by_cases hm : headMatches (p0 :: ps) (a :: t) = true
    · rw [if_pos hm]
      rfl
    · rw [if_neg hm]
      apply ih
      unfold containsSeq at h
      rwa [if_neg hm] at h

theorem splitFirstSeq_isSome [DecidableEq α] (pat s : List α)
    (h : containsSeq pat s = true) : (splitFirstSeq pat s).isSome := by
  match pat with
  | [] => simp [splitFirstSeq]
  | p0 :: ps => exact splitFirstAux_isSome p0 ps s [] h

/-- C6: for every handshake response byte sequence that delivers a
complete header block (the terminator appears within the size ceiling),
the negotiator succeeds exactly when the header block — the bytes
before the blank-line terminator — contains the upgrade success status
"101", handing back the header block and the already-buffered leftover
bytes; any response whose header block lacks it fails (the model of
raising the handshake error). -/
theorem C6_handshake_iff (resp : List Nat)
    (hterm : containsSeq crlfcrlf resp = true)
    (hsize : resp.length ≤ 65536) :
    ws_handshake [resp] =
      (if containsSeq statusNeedle (headerBlock resp) then
        .ok (headerBlock resp, afterHeader resp) else .error ()) := by
  have hne : resp ≠ [] := by
    intro h
    subst h
    exact absurd hterm (by decide)
  have hrecv : ws_recv_headers [resp] [] = .ok resp := by
    rw [ws_recv_headers]
    rw [if_neg (by decide)]
    rw [if_neg hne]
    rw [if_neg (by simp; omega)]
    rw [ws_recv_headers]
    rw [if_pos (by simpa using hterm)]
    simp
  unfold ws_handshake
  rw [hrecv]
  obtain ⟨pr, hpr⟩ := Option.isSome_iff_exists.mp (splitFirstSeq_isSome crlfcrlf resp hterm)
  obtain ⟨hdr, leftover⟩ := pr
  dsimp only
  rw [hpr]
  rw [show headerBlock resp = hdr from by simp [headerBlock, hpr],
    show afterHeader resp = leftover from by simp [afterHeader, hpr]]

/-- C6 witness: a 101 response is accepted (header block and buffered
leftover returned); a 403 response is rejected. -/
theorem C6_handshake_iff_witness :
    ws_handshake [strBytes ("HTTP/1.1 101 Switching Protocols\r\nUpgrade: websocket\r\n\r\nAB")] =
      .ok (strBytes ("HTTP/1.1 101 Switching Protocols\r\nUpgrade: websocket"), strBytes ("AB")) ∧
    ws_handshake [strBytes ("HTTP/1.1 403 Forbidden\r\n\r\n")] = .error () := by
  constructor
  · have h := C6_handshake_iff
      (strBytes ("HTTP/1.1 101 Switching Protocols\r\nUpgrade: websocket\r\n\r\nAB"))
      (by decide) (by decide)
    rw [h]
    rfl
  · have h := C6_handshake_iff (strBytes ("HTTP/1.1 403 Forbidden\r\n\r\n"))
      (by decide) (by decide)
    rw [h]
    rfl

/-! ### C7: RPC body decoding -/

theorem strictGo_eq_ignoreGo : ∀ (fuel : Nat) (bs : List Nat) (s : List Char),
    bs.length ≤ fuel → utf8StrictGo fuel bs = some s → utf8IgnoreGo fuel bs = s := by
  intro fuel
  induction fuel with
  | zero =>
    intro bs s hb hs
    have : bs = [] := by
      cases bs with
      | nil => rfl
      | cons b t => simp at hb
    subst this
    simp [utf8StrictGo] at hs
    subst hs
    rfl
  | succ f ih =>
    intro bs s hb hs
    rcases bs with _ | ⟨b, rest⟩
    · simp [utf8StrictGo] at hs
      subst hs
      rfl
    · unfold utf8StrictGo at hs
      unfold utf8IgnoreGo
      cases hstep : utf8Step (b :: rest) with
      | none => rw [hstep] at hs; simp at hs
      | some ck =>
        obtain ⟨c, k⟩ := ck
        rw [hstep] at hs
        dsimp only at hs ⊢
        obtain ⟨t, ht, hst⟩ := Option.map_eq_some'.mp hs
        have hlen : (rest.drop (k - 1)).length ≤ f := by
          simp only [List.length_drop, List.length_cons] at hb ⊢
          omega
        rw [ih (rest.drop (k - 1)) t hlen ht]
        exact hst

theorem utf8_ignore_of_strict (bs : List Nat) (s : List Char)
    (h : utf8DecodeStrict bs = some s) : utf8DecodeIgnore bs = s :=
  strictGo_eq_ignoreGo bs.length bs s le_rfl h

/-- C7 counterexample: the claim says the returned text is byte-for-byte
the decoding of the body with no bytes dropped, but for the body
ff 68 69 — which is not valid UTF-8 and so cannot parse as JSON — the
ignore-mode fallback drops the ff byte and returns "hi" (bytes 68 69). -/
theorem C7_counterexample :
    rawBytesOf (post_rpc_decode (fun _ => none) [255, 104, 105]) = some [104, 105] ∧
    utf8DecodeStrict [255, 104, 105] = none ∧
    [104, 105] ≠ [255, 104, 105] :=
  ⟨rfl, rfl, by decide⟩

/-- C7 amended: the call never raises on an unparseable body and
returns the raw text together with the transport status, but the text
is the body decoded with errors="ignore": when the body is valid UTF-8
this is exactly the full decoded body text, unchanged; when the body is
not valid UTF-8, undecodable bytes are dropped from it. -/
theorem C7_raw_body_amended :
    (∀ (jsonParse : List Char → Option JVal) (body : List Nat) (s : List Char),
      utf8DecodeStrict body = some s → jsonParse s = none →
      post_rpc_decode jsonParse body = .raw s) ∧
    (∀ (jsonParse : List Char → Option JVal) (body : List Nat),
      utf8DecodeStrict body = none →
      post_rpc_decode jsonParse body = .raw (utf8DecodeIgnore body)) := by
  constructor
  · intro jsonParse body s hstrict hparse
    unfold post_rpc_decode
    rw [hstrict]
    dsimp only
    rw [hparse, utf8_ignore_of_strict body s hstrict]
  · intro jsonParse body hstrict
    unfold post_rpc_decode
    rw [hstrict]

/-- C7 amended witness: the valid-UTF-8 body "[" fails to parse and is
returned unchanged. -/
theorem C7_raw_body_amended_witness :
    post_rpc_decode (fun _ => none) [91] = .raw [ '[' ] :=
  C7_raw_body_amended.1 (fun _ => none) [91] [ '[' ] rfl rfl

/-! ### C8: streaming scenario -/

/-- C8 counterexample: the claim says a decoded frame satisfies the
scenario only when both its type equals "sync-patch" and a sequence
field is present, but the loop's disjunctive guard accepts a frame that
only has a sequence field: a single decoded frame with a sequence field
and no type at all makes the scenario pass. -/
theorem C8_counterexample :
    sync_patch_loop [some (.jobj [(("sequence"), .jint 1)])] = .passed ∧
    isSyncPatchVal (List.lookup ("type") [(("sequence"), JVal.jint 1)]) = false :=
  ⟨rfl, rfl⟩

/-- C8 amended: the scenario succeeds exactly when, before the
deadline (modelled by the finite list of decoded-frame parse results),
a decoded dict frame satisfies the disjunction: type equals
"sync-patch" OR a sequence field is present; such a frame yields
success when sequence is present and an assertion failure when it is a
sync-patch without sequence; unparseable frames and dict frames
matching neither condition are skipped; and an exhausted deadline fails
the scenario. -/
theorem C8_sync_patch_amended :
    (∀ (m : List (String × JVal)) (rest : List (Option JVal)),
      (isSyncPatchVal (List.lookup ("type") m) || hasKey m ("sequence")) = true →
      hasKey m ("sequence") = true →
      sync_patch_loop (some (.jobj m) :: rest) = .passed) ∧
    (∀ (m : List (String × JVal)) (rest : List (Option JVal)),
      isSyncPatchVal (List.lookup ("type") m) = true →
      hasKey m ("sequence") = false →
      sync_patch_loop (some (.jobj m) :: rest) = .assertionError) ∧
    (∀ rest : List (Option JVal), sync_patch_loop (none :: rest) = sync_patch_loop rest) ∧
    (∀ (m : List (String × JVal)) (rest : List (Option JVal)),
      (isSyncPatchVal (List.lookup ("type") m) || hasKey m ("sequence")) = false →
      sync_patch_loop (some (.jobj m) :: rest) = sync_patch_loop rest) ∧
    sync_patch_loop [] = .timedOut := by
  refine ⟨?_, ?_, ?_, ?_, rfl⟩
  · intro m rest hcond hseq
    simp [sync_patch_loop, hcond, hseq]
  · intro m rest htype hseq
    simp [sync_patch_loop, htype, hseq]
  · intro rest
    simp [sync_patch_loop]
  · intro m rest hcond
    simp [sync_patch_loop, hcond]

/-- C8 amended witness: a frame with type "sync-patch" and a sequence
field passes. -/
theorem C8_sync_patch_amended_witness :
    sync_patch_loop
      [some (.jobj [(("type"), .jstr ("sync-patch")), (("sequence"), .jint 5)])] = .passed :=
  C8_sync_patch_amended.1 [(("type"), .jstr ("sync-patch")), (("sequence"), .jint 5)] []
    (by decide) (by decide)

/-! ### C9: teardown coverage -/

/-- C9 (code bug witness): when the backend process launches (Popen
succeeds) but discovery fails, start_backend raises before its return
value is assigned, so main's proc stays None and the finally block
skips terminate / wait / kill: the process was launched yet teardown
does not run.  By contrast, whenever start_backend returns, teardown
runs both when scenarios pass and when one fails. -/
theorem C9_teardown_gap :
    start_backend_launches ⟨true, none, true⟩ = true ∧
    (main_model ⟨true, none, true⟩).2 = false ∧
    (main_model ⟨true, some 8080, true⟩).2 = true ∧
    (main_model ⟨true, some 8080, false⟩).2 = true :=
  ⟨rfl, rfl, rfl, rfl⟩

/-! ### C10: the state-file reader is total -/

/-- C10: read_connection_port is total (modelled as a pure function:
every Python exception path is caught and becomes none) and returns
none when the file is missing, unreadable, malformed or not an object;
it returns a port exactly when the file parses to an object whose port
entry passes isinstance(int) with a non-zero value and, when an
expected pid is supplied, whose pid entry compares equal to it. -/
theorem C10_reader_total_spec :
    (∀ exp : Option Int,
      read_connection_port exp .missing = none ∧
      read_connection_port exp .unreadable = none ∧
      read_connection_port exp .malformed = none ∧
      read_connection_port exp .nonObject = none) ∧
    (∀ (exp : Option Int) (fs : FileState) (p : Int),
      read_connection_port exp fs = some p ↔
        ∃ m, fs = .object m ∧ ∃ v, List.lookup ("port") m = some v ∧
          isPyInt v = true ∧ pyToInt v = p ∧ p ≠ 0 ∧
          ∀ e, exp = some e → pyEqInt (List.lookup ("pid") m) e = true) := by
  constructor
  · intro exp
    exact ⟨rfl, rfl, rfl, rfl⟩
  · intro exp fs p
    cases fs with
    | missing => simp [read_connection_port]
    | unreadable => simp [read_connection_port]
    | malformed => simp [read_connection_port]
    | nonObject => simp [read_connection_port]
    | object m =>
      cases exp with
      | none =>
        constructor
        · intro h
          simp only [read_connection_port] at h
          cases hv : List.lookup ("port") m with
          | none => rw [hv] at h; exact absurd h (by simp)
          | some v =>
            rw [hv] at h
            dsimp only at h
            by_cases hi : (isPyInt v && decide (pyToInt v ≠ 0)) = true
            · rw [if_pos hi] at h
              have hp : pyToInt v = p := by injection h
              have hi' : isPyInt v = true ∧ pyToInt v ≠ 0 := by simpa using hi
              refine ⟨m, rfl, v, hv, hi'.1, hp, ?_, ?_⟩
              · rw [← hp]; exact hi'.2
              · intro e he; exact Option.noConfusion he
            · rw [if_neg hi] at h; exact absurd h (by simp)
        · rintro ⟨m', hm', v, hv, hint, hval, hp, -⟩
          injection hm' with hmm
          subst hmm
          simp only [read_connection_port]
          rw [hv]
          dsimp only
          rw [if_pos (by simp [hint, hval, hp])]
          rw [hval]
      | some pid =>
        constructor
        · intro h
          simp only [read_connection_port] at h
          by_cases hq : pyEqInt (List.lookup ("pid") m) pid = true
          · rw [if_pos hq] at h
            cases hv : List.lookup ("port") m with
            | none => rw [hv] at h; exact absurd h (by simp)
            | some v =>
              rw [hv] at h
              dsimp only at h
              by_cases hi : (isPyInt v && decide (pyToInt v ≠ 0)) = true
              · rw [if_pos hi] at h
                have hp : pyToInt v = p := by injection h
                have hi' : isPyInt v = true ∧ pyToInt v ≠ 0 := by simpa using hi
                refine ⟨m, rfl, v, hv, hi'.1, hp, ?_, ?_⟩
                · rw [← hp]; exact hi'.2
                · intro e he
                  injection he with he'
                  subst he'
                  exact hq
              · rw [if_neg hi] at h; exact absurd h (by simp)
          · rw [if_neg hq] at h; exact absurd h (by simp)
        · rintro ⟨m', hm', v, hv, hint, hval, hp, hpid⟩
          injection hm' with hmm
          subst hmm
          simp only [read_connection_port]
          rw [if_pos (hpid pid rfl), hv]
          dsimp only
          rw [if_pos (by simp [hint, hval, hp])]
          rw [hval]

/-- C10 witness: a well-formed file whose pid matches yields its port. -/
theorem C10_reader_total_spec_witness :
    read_connection_port (some 5) (.object [(("pid"), .jint 5), (("port"), .jint 91)]) = some 91 :=
  (C10_reader_total_spec.2 (some 5) (.object [(("pid"), .jint 5), (("port"), .jint 91)]) 91).mpr
    ⟨[(("pid"), .jint 5), (("port"), .jint 91)], rfl, .jint 91, rfl, rfl, rfl, by decide,
     fun e he => by cases he; rfl⟩

/-- C5 amended witness: a single silent observation (no matching lines,
missing state file, process alive) makes discovery time out, and that
poll cycle is a retry: prepending it to an empty trace leaves the
outcome the timeout. -/
theorem C5_timeout_amended_witness :
    discover 7 [⟨[("starting up").data], .missing, false⟩] = .ok .timeoutRaised ∧
    discover 7 (⟨[("starting up").data], .missing, false⟩ :: []) = discover 7 [] := by
  constructor
  · exact C5_timeout_amended.1 7 [⟨[("starting up").data], .missing, false⟩]
      (by intro o ho
          simp only [List.mem_singleton] at ho
          subst ho
          refine ⟨rfl, ?_, rfl⟩
          intro l hl
          simp only [List.mem_singleton] at hl
          subst hl
          exact ⟨by decide, by decide⟩)
  · exact C5_timeout_amended.2 7 ⟨[("starting up").data], .missing, false⟩ []
      rfl
      (by intro l hl
          simp only [List.mem_singleton] at hl
          subst hl
          exact ⟨by decide, by decide⟩)
      rfl

